import Mathlib

/-!
Verification of the monsil-wedding API routes (gallery ordering and
soft-delete model, guestbook, upload validation, static upload serving).

The database tables are modelled as Lean lists of rows; `created_at` is a
numeric timestamp; nullable SQL columns are `Option`; the physical file
store is a list of path strings.  SQL queries are translated clause by
clause from the route handlers; `ORDER BY` is realised with
`List.insertionSort` on the exact key expressions of the query (SQL leaves
tie order open, insertion sort is one faithful refinement).
-/

/-- A row of the `gallery` table.  `image_type` is the raw string stored in
the column (the routes insert `"main"` or `"gallery"`). -/
structure GRow where
  id : Nat
  filename : String
  image_type : String
  created_at : Nat
  order_index : Option Nat
  deleted_at : Option Nat
  deriving DecidableEq, Repr

/-- First ORDER BY key of the gallery read query:
`CASE WHEN image_type = 'main' THEN 0 ELSE 1 END`. -/
def typeKey (r : GRow) : Nat :=
  if r.image_type = "main" then 0 else 1

/-- Second ORDER BY key:
`CASE WHEN image_type = 'gallery' AND order_index IS NOT NULL THEN order_index ELSE created_at END`. -/
def tieKey (r : GRow) : Nat :=
  match r.order_index with
  | some k => if r.image_type = "gallery" then k else r.created_at
  | none => r.created_at

/-- The ordering relation of the gallery read query (lexicographic on the
two CASE keys, both ascending). -/
def rowLE (a b : GRow) : Prop :=
  typeKey a < typeKey b ∨ (typeKey a = typeKey b ∧ tieKey a ≤ tieKey b)

instance : DecidableRel rowLE := fun a b => by
  unfold rowLE; infer_instance

instance : IsTotal GRow rowLE := by
  constructor
  intro a b
  unfold rowLE
  rcases Nat.lt_trichotomy (typeKey a) (typeKey b) with h | h | h
  · exact Or.inl (Or.inl h)
  · rcases Nat.le_total (tieKey a) (tieKey b) with h2 | h2
    · exact Or.inl (Or.inr ⟨h, h2⟩)
    · exact Or.inr (Or.inr ⟨h.symm, h2⟩)
  · exact Or.inr (Or.inl h)

instance : IsTrans GRow rowLE := by
  constructor
  intro a b c hab hbc
  unfold rowLE at hab hbc ⊢
  rcases hab with h1 | ⟨h1, h1t⟩
  · rcases hbc with h2 | ⟨h2, _⟩
    · exact Or.inl (Nat.lt_trans h1 h2)
    · exact Or.inl (h2 ▸ h1)
  · rcases hbc with h2 | ⟨h2, h2t⟩
    · exact Or.inl (h1 ▸ h2)
    · exact Or.inr ⟨h1.trans h2, Nat.le_trans h1t h2t⟩

/-- An element of the JSON array returned by `GET /api/gallery`
(the row mapped to `{ id, url, filename, image_type, created_at, order_index }`,
with `url = "/uploads/" + filename`). -/
structure GalleryItem where
  id : Nat
  url : String
  filename : String
  image_type : String
  created_at : Nat
  order_index : Option Nat
  deriving DecidableEq, Repr

/-- The row-to-response mapping of the gallery GET handler. -/
def toItem (r : GRow) : GalleryItem :=
  { id := r.id, url := "/uploads/" ++ r.filename, filename := r.filename,
    image_type := r.image_type, created_at := r.created_at,
    order_index := r.order_index }

/-- Response envelope of `GET /api/gallery`. -/
structure GalleryGETResp where
  success : Bool
  data : List GalleryItem
  deriving DecidableEq, Repr

/-- `GET /api/gallery`.  The SELECT has no WHERE clause (it reads every row
of `gallery`, with no `deleted_at IS NULL` filter) and orders by the two
CASE keys.  The `Except` input is the outcome of
`Promise.race([queryPromise, timeoutPromise])`: `.error` covers both a
query failure and the 10-second timeout rejection; the catch block then
answers `{ success: true, data: [] }`. -/
def galleryGET (dbResult : Except String (List GRow)) : GalleryGETResp :=
  match dbResult with
  | Except.error _ => { success := true, data := [] }
  | Except.ok rows =>
      { success := true, data := (List.insertionSort rowLE rows).map toItem }

/-- Plain response envelope: HTTP status plus the `success` flag. -/
structure ApiResp where
  status : Nat
  success : Bool
  deriving DecidableEq, Repr

/-- The uploads root used by the upload and gallery-POST handlers
(`process.env.UPLOAD_DIR || '/app/public/uploads'`). -/
def uploadDir : String := "/app/public/uploads"

/-- The root used by the gallery DELETE handler's unlink:
`join(process.cwd(), 'public', 'uploads')`. -/
def cwdUploads : String := "/cwd/public/uploads"

/-- `path.join(dir, f)` for a slash-free relative component. -/
def joinPath (dir f : String) : String := dir ++ "/" ++ f

/-- Rows matching `image_type = "main" AND deleted_at IS NULL`. -/
def liveMains (db : List GRow) : List GRow :=
  db.filter (fun r => decide (r.image_type = "main" ∧ r.deleted_at = none))

/-- Number of live main rows. -/
def liveMainCount (db : List GRow) : Nat := (liveMains db).length

/-- AUTO_INCREMENT model for the primary key: one more than the largest id
present in the table. -/
def nextId (db : List GRow) : Nat :=
  (db.map GRow.id).foldr Nat.max 0 + 1

/-- `UPDATE gallery SET deleted_at = ? WHERE image_type = "main" AND deleted_at IS NULL`. -/
def softDeleteMains (db : List GRow) (t : Nat) : List GRow :=
  db.map (fun r =>
    if r.image_type = "main" ∧ r.deleted_at = none
    then { r with deleted_at := some t } else r)

/-- Best-effort unlink of a list of paths (a missing path is skipped,
matching the swallowed unlink errors in the handlers). -/
def unlinkAll (fs : List String) (paths : List String) : List String :=
  paths.foldl (fun acc p => acc.erase p) fs

/-- `writeFile`: the path exists afterwards. -/
def writeFileFS (fs : List String) (p : String) : List String :=
  if p ∈ fs then fs else fs ++ [p]

/-- `SELECT COALESCE(MAX(order_index), 0) ... WHERE image_type = "gallery"
AND deleted_at IS NULL` of the gallery POST handler (followed by `|| 0`,
the identity on the already-coalesced value). -/
def maxLiveGalleryOrder (db : List GRow) : Nat :=
  ((db.filter (fun r => decide (r.image_type = "gallery" ∧ r.deleted_at = none))).filterMap
    GRow.order_index).foldr Nat.max 0

/-- `SELECT MAX(order_index) ... WHERE image_type = "gallery"` of the admin
upload handler: no `deleted_at` filter; a NULL result becomes 0 via `|| 0`. -/
def maxAllGalleryOrder (db : List GRow) : Nat :=
  ((db.filter (fun r => decide (r.image_type = "gallery"))).filterMap
    GRow.order_index).foldr Nat.max 0

/-- JSON body of `POST /api/gallery`; `image_type` defaults to `"gallery"`
when absent, and a missing or empty `filename` is rejected (`if (!filename)`). -/
structure GalleryPostBody where
  filename : Option String
  image_type : Option String
  deriving DecidableEq, Repr

/-- `POST /api/gallery`.  For `image_type = "main"`: reads the live main
filenames, soft-deletes every live main row, best-effort unlinks their
files under `UPLOAD_DIR` (skipping empty filenames), then inserts the new
main row with NULL `order_index`.  For `"gallery"`: computes
`COALESCE(MAX(order_index),0) + 1` over live gallery rows and inserts with
that `order_index`.  Returns `(response, table, file store)`. -/
def galleryPOST (db : List GRow) (fs : List String) (b : GalleryPostBody) (t : Nat) :
    ApiResp × List GRow × List String :=
  let filename := b.filename.getD ""
  let image_type := b.image_type.getD "gallery"
  if filename = "" then ({ status := 400, success := false }, db, fs)
  else if image_type ≠ "main" ∧ image_type ≠ "gallery" then
    ({ status := 400, success := false }, db, fs)
  else if image_type = "main" then
    let existing := (liveMains db).map GRow.filename
    let db1 := softDeleteMains db t
    let fs1 := unlinkAll fs ((existing.filter (fun s => s ≠ "")).map (joinPath uploadDir))
    let newRow : GRow :=
      { id := nextId db1, filename := filename, image_type := "main",
        created_at := t, order_index := none, deleted_at := none }
    ({ status := 200, success := true }, db1 ++ [newRow], fs1)
  else
    let newOrder := maxLiveGalleryOrder db + 1
    let newRow : GRow :=
      { id := nextId db, filename := filename, image_type := "gallery",
        created_at := t, order_index := some newOrder, deleted_at := none }
    ({ status := 200, success := true }, db ++ [newRow], fs)

/-- `DELETE /api/gallery?id=...`.  Missing id: 400.  Looks up
`id = ? AND deleted_at IS NULL`; no row: 404.  Otherwise
`UPDATE gallery SET deleted_at = ? WHERE id = ?` (no `deleted_at` filter in
the UPDATE), then best-effort unlink of the first found row's file under
`join(process.cwd(), 'public', 'uploads')`; unlink failure is swallowed and
the response is success either way. -/
def galleryDELETE (db : List GRow) (fs : List String) (idp : Option Nat) (t : Nat) :
    ApiResp × List GRow × List String :=
  match idp with
  | none => ({ status := 400, success := false }, db, fs)
  | some gid =>
    match db.filter (fun r => decide (r.id = gid ∧ r.deleted_at = none)) with
    | [] => ({ status := 404, success := false }, db, fs)
    | row :: _ =>
      let db1 := db.map (fun r =>
        if r.id = gid then { r with deleted_at := some t } else r)
      let fs1 := if row.filename = "" then fs
                 else fs.erase (joinPath cwdUploads row.filename)
      ({ status := 200, success := true }, db1, fs1)

/-- JS `s.startsWith(p)`, modelled structurally on the character list. -/
def startsWithStr (s p : String) : Bool := p.data.isPrefixOf s.data

/-- JS `s.includes(c)` for a single character, modelled structurally. -/
def containsChar (s : String) (c : Char) : Bool := s.data.contains c

/-- A parsed multipart upload: name, byte size, MIME, and whether the sharp
pipeline can decode the bytes (the external image library is modelled by
this capability flag; sharp accepts more formats than JPEG/PNG/WebP). -/
structure UpFile where
  name : String
  size : Nat
  mime : String
  sharpOk : Bool
  deriving DecidableEq, Repr

/-- Parameters of a sharp pipeline invocation
(`.jpeg({quality, progressive}) .resize(maxWidth, null, {withoutEnlargement, fit: 'inside'})`). -/
structure SharpSpec where
  quality : Nat
  progressive : Bool
  maxWidth : Nat
  withoutEnlargement : Bool
  fitInside : Bool
  deriving DecidableEq, Repr

/-- Upload response: status, success flag, and the sharp parameters used
when the file was accepted and processed. -/
structure UploadResp where
  status : Nat
  success : Bool
  processed : Option SharpSpec
  deriving DecidableEq, Repr

/-- 50MB limit shared by both upload routes. -/
def maxFileSize : Nat := 50 * 1024 * 1024

/-- `s.toLowerCase()`. -/
def lowerStr (s : String) : String := String.mk (s.data.map Char.toLower)

/-- JS `s.includes(pat)` (substring containment). -/
def containsSub (s pat : String) : Bool :=
  s.data.tails.any (fun t => pat.data.isPrefixOf t)

/-- `filename.toLowerCase().includes('.heic') || type === 'image/heic'`. -/
def isHeicFile (f : UpFile) : Bool :=
  containsSub (lowerStr f.name) ".heic" || f.mime == "image/heic"

/-- Sharp parameters of `POST /api/admin/upload`
(quality 75, progressive, resize to width 1200, fit inside, no enlargement). -/
def adminSharp : SharpSpec :=
  { quality := 75, progressive := true, maxWidth := 1200,
    withoutEnlargement := true, fitInside := true }

/-- Sharp parameters of `POST /api/upload/image`
(quality 85, progressive, resize to width 1920, fit inside, no enlargement). -/
def imageSharp : SharpSpec :=
  { quality := 85, progressive := true, maxWidth := 1920,
    withoutEnlargement := true, fitInside := true }

/-- The part of `POST /api/admin/upload` after the session and form checks
(split out of `adminUpload` for the proofs). -/
def adminUploadFile (db : List GRow) (fs : List String) (f : UpFile)
    (imageTypeParam : Option String) (t : Nat) (rand : String) :
    UploadResp × List GRow × List String :=
  let image_type := if imageTypeParam.getD "" = "" then "gallery" else imageTypeParam.getD ""
  if f.size > maxFileSize then
    ({ status := 400, success := false, processed := none }, db, fs)
  else
    let dbFilename := if image_type = "main" then "main_cover.jpg"
                      else "gallery_" ++ toString t ++ "_" ++ rand ++ ".jpg"
    let dbPath := "images/" ++ dbFilename
    let existing := if image_type = "main"
                    then (db.filter (fun r => decide (r.image_type = "main"))).map GRow.filename
                    else []
    let db1 := if image_type = "main"
               then db.filter (fun r => decide (¬ r.image_type = "main"))
               else db
    let fs1 := if image_type = "main"
               then unlinkAll fs ((existing.filter (fun s => s ≠ "")).map (joinPath uploadDir))
               else fs
    if ¬ f.sharpOk then
      if isHeicFile f then
        ({ status := 400, success := false, processed := none }, db1, fs1)
      else
        ({ status := 500, success := false, processed := none }, db1, fs1)
    else
      let fs2 := writeFileFS fs1 (joinPath uploadDir dbPath)
      if image_type = "gallery" then
        let newRow : GRow :=
          { id := nextId db1, filename := dbPath, image_type := "gallery",
            created_at := t, order_index := some (maxAllGalleryOrder db1 + 1),
            deleted_at := none }
        ({ status := 200, success := true, processed := some adminSharp },
         db1 ++ [newRow], fs2)
      else
        let newRow : GRow :=
          { id := nextId db1, filename := dbPath, image_type := image_type,
            created_at := t, order_index := none, deleted_at := none }
        ({ status := 200, success := true, processed := some adminSharp },
         db1 ++ [newRow], fs2)

/-- `POST /api/admin/upload`.  Checks the `admin_session` cookie, then the
file presence, then the 50MB size limit — and nothing else: no MIME-type
allow-list.  For `image_type = "main"` it hard-deletes every `gallery` row
with `image_type = "main"` (`DELETE FROM gallery`, not a soft delete) and
unlinks their files BEFORE running sharp.  A sharp failure answers 400 for
HEIC-looking files and 500 otherwise.  On success the processed JPEG is
written under `images/` and a row is inserted; for `"gallery"` the
`order_index` is `MAX(order_index) + 1` over ALL gallery rows (the query
has no `deleted_at` filter).  `rand` stands for the random part of the
generated gallery filename. -/
def adminUpload (db : List GRow) (fs : List String) (session : Option String)
    (file : Option UpFile) (imageTypeParam : Option String) (t : Nat) (rand : String) :
    UploadResp × List GRow × List String :=
  if ¬ startsWithStr (session.getD "") "admin_" then
    ({ status := 401, success := false, processed := none }, db, fs)
  else
    match file with
    | none => ({ status := 400, success := false, processed := none }, db, fs)
    | some f => adminUploadFile db fs f imageTypeParam t rand

/-- MIME allow-list of `POST /api/upload/image`. -/
def supportedTypes : List String :=
  ["image/jpeg", "image/jpg", "image/png", "image/webp"]

/-- `POST /api/upload/image`.  Validates file presence, the 50MB size
limit, and the MIME type against `supportedTypes` (HEIC is therefore
rejected with 400 here).  Accepted files are sharp-processed with
`imageSharp` and written under `images/`; no database row is written by
this route.  A sharp failure falls into the catch block and answers 500. -/
def uploadImage (fs : List String) (file : Option UpFile) (targetId : Option String)
    (t : Nat) : UploadResp × List String :=
  match file with
  | none => ({ status := 400, success := false, processed := none }, fs)
  | some f =>
    if f.size > maxFileSize then
      ({ status := 400, success := false, processed := none }, fs)
    else if ¬ f.mime ∈ supportedTypes then
      ({ status := 400, success := false, processed := none }, fs)
    else
      let tid := targetId.getD ""
      let fileName := (if tid = "" then toString t else tid) ++ ".jpg"
      if ¬ f.sharpOk then
        ({ status := 500, success := false, processed := none }, fs)
      else
        ({ status := 200, success := true, processed := some imageSharp },
         writeFileFS fs (joinPath uploadDir ("images/" ++ fileName)))

/-- One main-image insertion: either `POST /api/gallery` with
`image_type = "main"`, or `POST /api/admin/upload` with a valid admin
session and `image_type = "main"`. -/
inductive MainOp where
  | viaGallery (filename : String) (t : Nat)
  | viaAdmin (file : UpFile) (t : Nat) (rand : String)
  deriving Repr

/-- Apply one main-image insertion to `(gallery table, file store)`. -/
def applyMainOp (s : List GRow × List String) (op : MainOp) : List GRow × List String :=
  match op with
  | MainOp.viaGallery f t =>
      (galleryPOST s.1 s.2 { filename := some f, image_type := some "main" } t).2
  | MainOp.viaAdmin f t rand =>
      (adminUpload s.1 s.2 (some "admin_s") (some f) (some "main") t rand).2

/-- Apply a sequence of main-image insertions. -/
def applyMainOps (s : List GRow × List String) (ops : List MainOp) :
    List GRow × List String :=
  ops.foldl applyMainOp s

/-- A row of the `guestbook` table. -/
structure GBRow where
  id : Nat
  name : String
  password : String
  content : String
  created_at : Nat
  deleted_at : Option Nat
  deriving DecidableEq, Repr

/-- An element of the JSON array returned by `GET /api/guestbook`
(`created_at` is kept numeric; the handler only reformats it as text). -/
structure GBOut where
  id : Nat
  name : String
  content : String
  created_at : Nat
  deriving DecidableEq, Repr

/-- `ORDER BY created_at DESC` as a relation. -/
def gbDescLE (a b : GBRow) : Prop := b.created_at ≤ a.created_at

instance : DecidableRel gbDescLE := fun a b => by
  unfold gbDescLE; infer_instance

instance : IsTotal GBRow gbDescLE := by
  constructor
  intro a b
  exact (Nat.le_total b.created_at a.created_at).imp id id

instance : IsTrans GBRow gbDescLE := by
  constructor
  intro a b c hab hbc
  exact Nat.le_trans hbc hab

/-- The row-to-response mapping of the guestbook GET handler. -/
def gbOut (r : GBRow) : GBOut :=
  { id := r.id, name := r.name, content := r.content, created_at := r.created_at }

/-- `GET /api/guestbook`:
`SELECT ... WHERE deleted_at IS NULL ORDER BY created_at DESC LIMIT 50`.
Unlike the gallery read, an error or the 10s timeout here is answered with
a 500 failure. -/
def guestbookGET (dbResult : Except String (List GBRow)) : ApiResp × List GBOut :=
  match dbResult with
  | Except.error _ => ({ status := 500, success := false }, [])
  | Except.ok rows =>
      let live := rows.filter (fun r => decide (r.deleted_at = none))
      ({ status := 200, success := true },
       ((List.insertionSort gbDescLE live).take 50).map gbOut)

/-- Password comparison of the guestbook DELETE handler: a stored value
containing `':'` is treated as hashed and checked with `verifyPassword`
(modelled by the `verify` parameter, the `lib/encryption` module not being
under src/); otherwise a plaintext comparison is used. -/
def computeMatch (verify : String → String → Bool) (supplied stored : String) : Bool :=
  if containsChar stored ':' then verify supplied stored else supplied == stored

/-- `DELETE /api/guestbook?id=...&password=...`.  Missing id or password:
400.  Looks up the stored password of the live row (404 when absent).  On a
plaintext match the password column is re-hashed in place (`hash`
parameter) before deletion; on a mismatch: 401 with no mutation; on a
match: `UPDATE guestbook SET deleted_at = ? WHERE id = ?`. -/
def guestbookDELETE (verify : String → String → Bool) (hash : String → String)
    (db : List GBRow) (idp : Option Nat) (pwp : Option String) (t : Nat) :
    ApiResp × List GBRow :=
  match idp, pwp with
  | none, _ => ({ status := 400, success := false }, db)
  | _, none => ({ status := 400, success := false }, db)
  | some gid, some pw =>
    if pw = "" then ({ status := 400, success := false }, db)
    else
      match db.filter (fun r => decide (r.id = gid ∧ r.deleted_at = none)) with
      | [] => ({ status := 404, success := false }, db)
      | row :: _ =>
        let m := computeMatch verify pw row.password
        let db1 := if ¬ containsChar row.password ':' ∧ m = true
                   then db.map (fun r =>
                     if r.id = gid then { r with password := hash pw } else r)
                   else db
        if ¬ m then ({ status := 401, success := false }, db1)
        else
          ({ status := 200, success := true },
           db1.map (fun r => if r.id = gid then { r with deleted_at := some t } else r))

/-- `UPDATE gallery SET order_index = pos WHERE id = gid` (one step of the
reorder loop). -/
def updOrder (gid pos : Nat) (db : List GRow) : List GRow :=
  db.map (fun r => if r.id = gid then { r with order_index := some pos } else r)

/-- Sequential per-id updates of the reorder loop, positions starting at
`start`. -/
def applyOrders (db : List GRow) (ids : List Nat) (start : Nat) : List GRow :=
  match ids with
  | [] => db
  | gid :: rest => applyOrders (updOrder gid start db) rest (start + 1)

/-- Modelled from the spec: the reorder handler (`PUT /api/admin/gallery`)
is not present under src/ — only its client-side caller
(`handleReorder`, which PUTs `{ sortedIds }`) is.  Per the spec contract
"assigns `order_index = position` for each id in the given order", one
UPDATE per id, not transactional; position base 0. -/
def reorder (db : List GRow) (ids : List Nat) : List GRow :=
  applyOrders db ids 0

/-- Responses of `GET /api/uploads/:path*`.  `ok` carries the resolved
path (as segments) of the file that is read and returned. -/
inductive UploadsResp where
  | invalidPath400
  | forbiddenExt403
  | forbiddenPath403
  | notFound404
  | ok (served : List String)
  deriving DecidableEq, Repr

/-- JS `p.replace(/\.\./g, '')`: left-to-right removal of non-overlapping
`".."` occurrences. -/
def removeDotDot : List Char → List Char
  | '.' :: '.' :: rest => removeDotDot rest
  | c :: rest => c :: removeDotDot rest
  | [] => []

/-- One path segment after `p.replace(/\.\./g, '').replace(/[\/\\]/g, '')`. -/
def sanitizeSeg (s : String) : String :=
  String.mk ((removeDotDot s.data).filter (fun c => ¬ (c = '/' ∨ c = '\\')))

/-- `p.includes('..') || p.includes('/') || p.includes('\\')`. -/
def checkBad (s : String) : Bool :=
  containsSub s ".." || containsSub s "/" || containsSub s "\\"

/-- JS `filename.toLowerCase().substring(filename.lastIndexOf('.'))`
(the whole lowercased name when there is no dot, `substring(-1)` clamping
to 0). -/
def extOf (s : String) : String :=
  let low := s.data.map Char.toLower
  let rev := low.reverse
  let pre := rev.takeWhile (fun c => ¬ c = '.')
  if pre.length = rev.length then String.mk low
  else String.mk ('.' :: pre.reverse)

/-- Extension allow-list of the uploads route. -/
def allowedExtensions : List String := [".jpg", ".jpeg", ".png", ".webp", ".gif"]

/-- The resolved uploads root, as path segments. -/
def uploadsRoot : List String := ["app", "public", "uploads"]

/-- One step of `path.resolve` segment normalisation. -/
def resolveStep (acc : List String) (s : String) : List String :=
  if s = "" ∨ s = "." then acc
  else if s = ".." then acc.dropLast
  else acc ++ [s]

/-- `resolve(join(root, ...segs))`, modelled on segments. -/
def resolvePath (root : List String) (segs : List String) : List String :=
  segs.foldl resolveStep root

/-- Whether some raw path segment contains a `".."` traversal sequence. -/
def hasTraversal (path : List String) : Bool :=
  path.any (fun s => containsSub s "..")

/-- `GET /api/uploads/:path*` over an abstract file store `fsys` (the set of
existing resolved paths).  Sanitizes each segment, answers 400 when a
sanitized segment still holds `".."`/`'/'`/`'\\'`, 403 when the last
segment's extension is not allow-listed, 403 when the resolved path does
not start with the uploads root, 404 when the file is absent, and
otherwise reads and returns the file at the resolved path. -/
def uploadsGET (fsys : List (List String)) (path : List String) : UploadsResp :=
  let sanitized := path.map sanitizeSeg
  if sanitized.any checkBad then UploadsResp.invalidPath400
  else
    let filename := sanitized.getLast?.getD ""
    if ¬ extOf filename ∈ allowedExtensions then UploadsResp.forbiddenExt403
    else
      let resolved := resolvePath uploadsRoot sanitized
      if uploadsRoot.isPrefixOf resolved then
        if resolved ∈ fsys then UploadsResp.ok resolved else UploadsResp.notFound404
      else UploadsResp.forbiddenPath403

/-- First CASE key evaluated on a response item. -/
def itemTypeKey (it : GalleryItem) : Nat :=
  if it.image_type = "main" then 0 else 1

/-- Second CASE key evaluated on a response item. -/
def itemTieKey (it : GalleryItem) : Nat :=
  match it.order_index with
  | some k => if it.image_type = "gallery" then k else it.created_at
  | none => it.created_at

/-- The read-ordering relation on response items: main items first, then by
`order_index`, falling back to `created_at` where `order_index` is null. -/
def itemLE (a b : GalleryItem) : Prop :=
  itemTypeKey a < itemTypeKey b ∨ (itemTypeKey a = itemTypeKey b ∧ itemTieKey a ≤ itemTieKey b)

/-- Fixture for C2: a well-formed main-image upload. -/
def c2file : UpFile :=
  { name := "new.jpg", size := 1000, mime := "image/jpeg", sharpOk := true }

/-- Fixture for C2: the previously live main row. -/
def c2old : GRow :=
  { id := 1, filename := "images/main_cover.jpg", image_type := "main",
    created_at := 1, order_index := none, deleted_at := none }

/-- Fixture for C2: an unrelated live gallery row (keeps the modelled
AUTO_INCREMENT counter ahead of the old main row's id). -/
def c2other : GRow :=
  { id := 3, filename := "g.jpg", image_type := "gallery", created_at := 1,
    order_index := some 1, deleted_at := none }

/-- Fixture for C3: a live gallery row. -/
def c3row : GRow :=
  { id := 1, filename := "a.jpg", image_type := "gallery", created_at := 5,
    order_index := some 1, deleted_at := none }

/-- Fixture for C4: one soft-deleted gallery row with `order_index = 5` and
one live gallery row with `order_index = 2`. -/
def c4db : List GRow :=
  [{ id := 1, filename := "x.jpg", image_type := "gallery", created_at := 1,
     order_index := some 5, deleted_at := some 3 },
   { id := 2, filename := "y.jpg", image_type := "gallery", created_at := 2,
     order_index := some 2, deleted_at := none }]

/-- Fixture for C4: a well-formed gallery upload. -/
def c4file : UpFile :=
  { name := "z.jpg", size := 10, mime := "image/jpeg", sharpOk := true }

/-- Fixture for C7: a live guestbook row with a plaintext stored password. -/
def c7row : GBRow :=
  { id := 1, name := "n", password := "pw1", content := "c", created_at := 3,
    deleted_at := none }

/-- Fixture for C8: a GIF upload that sharp can decode. -/
def c8gif : UpFile :=
  { name := "a.gif", size := 100, mime := "image/gif", sharpOk := true }

/-- Fixture for C8: an oversized upload. -/
def c8big : UpFile :=
  { name := "big.jpg", size := 60 * 1024 * 1024, mime := "image/jpeg", sharpOk := true }

/-- Fixture for C9: three live gallery rows with ids 1, 2, 3. -/
def c9db : List GRow :=
  [{ id := 1, filename := "p1.jpg", image_type := "gallery", created_at := 1,
     order_index := some 1, deleted_at := none },
   { id := 2, filename := "p2.jpg", image_type := "gallery", created_at := 2,
     order_index := some 2, deleted_at := none },
   { id := 3, filename := "p3.jpg", image_type := "gallery", created_at := 3,
     order_index := some 3, deleted_at := none }]

/-- Fixture for C10: a single live guestbook row. -/
def c10row : GBRow :=
  { id := 1, name := "a", password := "p", content := "hello", created_at := 5,
    deleted_at := none }

theorem rowLE_toItem {a b : GRow} (h : rowLE a b) : itemLE (toItem a) (toItem b) := by
  simpa [itemLE, itemTypeKey, itemTieKey, typeKey, tieKey, toItem, rowLE] using h

/-- C5: if the gallery read query raises any error or hits the 10-second
timeout, `GET /api/gallery` still answers `success: true` with an empty
data list, never an error response. -/
theorem galleryGET_error_gives_empty_success (e : String) :
    galleryGET (Except.error e) = { success := true, data := [] } := rfl

/-- C1 (amended): `GET /api/gallery` returns EVERY row of the table — the
query has no `deleted_at IS NULL` filter, so soft-deleted rows are included
— ordered with main rows first and then by `order_index` ascending,
falling back to `created_at` where `order_index` is null. -/
theorem galleryGET_all_rows_sorted (db : List GRow) :
    (galleryGET (Except.ok db)).success = true ∧
    List.Perm (galleryGET (Except.ok db)).data (db.map toItem) ∧
    ((galleryGET (Except.ok db)).data).Pairwise itemLE := by
  refine ⟨rfl, ?_, ?_⟩
  · exact (List.perm_insertionSort rowLE db).map toItem
  · exact List.pairwise_map.mpr ((List.sorted_insertionSort rowLE db).imp rowLE_toItem)

/-- C1 counterexample: a soft-deleted row (`deleted_at = 99`) is returned
by `GET /api/gallery`, refuting "returns only rows with
`deleted_at IS NULL`". -/
theorem galleryGET_returns_deleted_row :
    (({ id := 1, filename := "a.jpg", image_type := "gallery", created_at := 10,
        order_index := some 1, deleted_at := some 99 } : GRow).deleted_at ≠ none) ∧
    (galleryGET (Except.ok
        [{ id := 1, filename := "a.jpg", image_type := "gallery", created_at := 10,
           order_index := some 1, deleted_at := some 99 }])).data =
      [toItem { id := 1, filename := "a.jpg", image_type := "gallery", created_at := 10,
                order_index := some 1, deleted_at := some 99 }] := by
  exact ⟨by decide, rfl⟩

/-- C10: `GET /api/guestbook` answers 200 with at most 50 entries, only
from rows with `deleted_at IS NULL`, ordered by `created_at` descending. -/
theorem guestbookGET_limit_filter_order (db : List GBRow) :
    (guestbookGET (Except.ok db)).1 = { status := 200, success := true } ∧
    (guestbookGET (Except.ok db)).2.length ≤ 50 ∧
    (∀ o ∈ (guestbookGET (Except.ok db)).2, ∃ r ∈ db, r.deleted_at = none ∧ o = gbOut r) ∧
    (guestbookGET (Except.ok db)).2.Pairwise (fun a b => b.created_at ≤ a.created_at) := by
  refine ⟨rfl, ?_, ?_, ?_⟩
  · simp only [guestbookGET, List.length_map]
    exact List.length_take_le 50 _
  · intro o ho
    simp only [guestbookGET, List.mem_map] at ho
    obtain ⟨r, hr, rfl⟩ := ho
    have hr2 : r ∈ List.insertionSort gbDescLE
        (db.filter (fun r => decide (r.deleted_at = none))) :=
      List.mem_of_mem_take hr
    have hr3 : r ∈ db.filter (fun r => decide (r.deleted_at = none)) :=
      (List.mem_insertionSort gbDescLE).mp hr2
    have hr4 := List.mem_filter.mp hr3
    exact ⟨r, hr4.1, by simpa using hr4.2, rfl⟩
  · have hs : (List.insertionSort gbDescLE
        (db.filter (fun r => decide (r.deleted_at = none)))).Pairwise gbDescLE :=
      List.sorted_insertionSort gbDescLE _
    have ht : ((List.insertionSort gbDescLE
        (db.filter (fun r => decide (r.deleted_at = none)))).take 50).Pairwise gbDescLE :=
      hs.sublist (List.take_sublist 50 _)
    exact List.pairwise_map.mpr (ht.imp (fun h => h))

/-- C10 witness: the theorem applied at a one-row table. -/
theorem guestbookGET_limit_filter_order_witness :
    ∃ r ∈ [c10row], r.deleted_at = none ∧ gbOut c10row = gbOut r :=
  (guestbookGET_limit_filter_order [c10row]).2.2.1 (gbOut c10row) (by decide)

theorem isPrefixOf_imp_prefix :
    ∀ {l1 l2 : List String}, l1.isPrefixOf l2 = true → l1 <+: l2
  | [], l2, _ => ⟨l2, rfl⟩
  | a :: as, b :: bs, h => by
    rw [List.isPrefixOf] at h
    have hab : a = b := by
      have := (Bool.and_eq_true _ _).mp h
      exact eq_of_beq this.1
    have htail : as <+: bs :=
      isPrefixOf_imp_prefix ((Bool.and_eq_true _ _).mp h).2
    obtain ⟨t, ht⟩ := htail
    exact ⟨t, by rw [hab, List.cons_append, ht]⟩

/-- C6 (amended): traversal sequences are stripped from each segment before
the path is resolved, so a traversal-containing request is not necessarily
answered 400/403 — but no file whose resolved path lies outside the uploads
root is ever read or returned (every served path starts with the uploads
root), and the classic `../../etc/passwd` request is answered 403. -/
theorem uploadsGET_no_escape_and_passwd_403 :
    (∀ fsys path served, uploadsGET fsys path = UploadsResp.ok served →
      uploadsRoot <+: served) ∧
    (∀ fsys, uploadsGET fsys ["..", "..", "etc", "passwd"] = UploadsResp.forbiddenExt403) := by
  constructor
  · intro fsys path served h
    simp only [uploadsGET] at h
    split at h
    · cases h
    · split at h
      · cases h
      · split at h
        next hpre =>
          split at h
          · injection h with h2
            subst h2
            exact isPrefixOf_imp_prefix hpre
          · cases h
        next => cases h
  · intro fsys
    rfl

/-- C6 witness: the no-escape conjunct applied at a concrete request that
is actually served. -/
theorem uploadsGET_no_escape_witness :
    uploadsRoot <+: ["app", "public", "uploads", "x.jpg"] :=
  uploadsGET_no_escape_and_passwd_403.1 [["app", "public", "uploads", "x.jpg"]]
    ["x.jpg"] ["app", "public", "uploads", "x.jpg"] (by decide)

/-- C6 counterexample: the request path `["..", "x.jpg"]` contains a
traversal sequence, yet after sanitization it is served (status 200) from
inside the uploads root — not answered 400 or 403. -/
theorem uploadsGET_traversal_not_rejected :
    hasTraversal ["..", "x.jpg"] = true ∧
    uploadsGET [["app", "public", "uploads", "x.jpg"]] ["..", "x.jpg"]
      = UploadsResp.ok ["app", "public", "uploads", "x.jpg"] := by
  exact ⟨by decide, by decide⟩

theorem liveMains_append (a b : List GRow) :
    liveMains (a ++ b) = liveMains a ++ liveMains b := by
  simp [liveMains, List.filter_append]

theorem liveMains_softDelete (db : List GRow) (t : Nat) :
    liveMains (softDeleteMains db t) = [] := by
  rw [liveMains, List.filter_eq_nil_iff]
  intro r hr
  rw [softDeleteMains] at hr
  simp only [List.mem_map] at hr
  obtain ⟨r0, _, rfl⟩ := hr
  by_cases h : r0.image_type = "main" ∧ r0.deleted_at = none
  · simp [h]
  · simp only [if_neg h]
    simpa using h

theorem liveMains_removeMains (db : List GRow) :
    liveMains (db.filter (fun r => decide (¬ r.image_type = "main"))) = [] := by
  rw [liveMains, List.filter_eq_nil_iff]
  intro r hr
  have h2 := (List.mem_filter.mp hr).2
  simp only [decide_eq_true_eq] at h2
  simp [h2]

theorem galleryPOST_main_liveMainCount (db : List GRow) (fs : List String)
    (f : String) (t : Nat) (h : liveMainCount db ≤ 1) :
    liveMainCount (galleryPOST db fs
      { filename := some f, image_type := some "main" } t).2.1 ≤ 1 := by
  by_cases hf : f = ""
  · simpa [galleryPOST, hf] using h
  · simp only [galleryPOST, Option.getD_some, if_neg hf]
    norm_num
    rw [liveMainCount, liveMains_append, liveMains_softDelete]
    simp [liveMains]


theorem adminUploadFile_main_liveMainCount (db : List GRow) (fs : List String)
    (f : UpFile) (t : Nat) (rand : String) (h : liveMainCount db ≤ 1) :
    liveMainCount (adminUploadFile db fs f (some "main") t rand).2.1 ≤ 1 := by
  by_cases hs : f.size > maxFileSize
  · simp only [adminUploadFile, Option.getD_some, if_pos hs]
    exact h
  · by_cases hok : f.sharpOk = true
    · simp only [adminUploadFile, Option.getD_some, if_neg hs,
        if_neg (by decide : ¬ ("main" : String) = ""),
        if_pos (rfl : ("main" : String) = "main"),
        if_neg (by decide : ¬ ("main" : String) = "gallery"),
        if_neg (show ¬ ¬ f.sharpOk = true by simp [hok]), if_true]
      rw [liveMainCount, liveMains_append, liveMains_removeMains, List.nil_append]
      simp [liveMains]
    · by_cases hh : isHeicFile f = true
      · simp only [adminUploadFile, Option.getD_some, if_neg hs,
          if_neg (by decide : ¬ ("main" : String) = ""),
          if_pos (rfl : ("main" : String) = "main"),
          if_pos (show ¬ f.sharpOk = true from hok), if_pos hh, if_true]
        rw [liveMainCount, liveMains_removeMains]
        simp
      · simp only [adminUploadFile, Option.getD_some, if_neg hs,
          if_neg (by decide : ¬ ("main" : String) = ""),
          if_pos (rfl : ("main" : String) = "main"),
          if_pos (show ¬ f.sharpOk = true from hok), if_neg hh, if_true]
        rw [liveMainCount, liveMains_removeMains]
        simp

theorem adminUpload_main_liveMainCount (db : List GRow) (fs : List String)
    (f : UpFile) (t : Nat) (rand : String) (h : liveMainCount db ≤ 1) :
    liveMainCount (adminUpload db fs (some "admin_s") (some f) (some "main") t rand).2.1 ≤ 1 := by
  have hred : adminUpload db fs (some "admin_s") (some f) (some "main") t rand
      = adminUploadFile db fs f (some "main") t rand := rfl
  rw [hred]
  exact adminUploadFile_main_liveMainCount db fs f t rand h

theorem applyMainOp_liveMainCount (s : List GRow × List String) (op : MainOp)
    (h : liveMainCount s.1 ≤ 1) : liveMainCount (applyMainOp s op).1 ≤ 1 := by
  cases op with
  | viaGallery f t => exact galleryPOST_main_liveMainCount s.1 s.2 f t h
  | viaAdmin f t rand => exact adminUpload_main_liveMainCount s.1 s.2 f t rand h

theorem applyMainOps_liveMainCount (ops : List MainOp) (s : List GRow × List String)
    (h : liveMainCount s.1 ≤ 1) : liveMainCount (applyMainOps s ops).1 ≤ 1 := by
  induction ops generalizing s with
  | nil => exact h
  | cons op rest ih => exact ih _ (applyMainOp_liveMainCount s op h)

/-- C2 (amended): for every sequence of main-image insertions (via
`POST /api/gallery` or `POST /api/admin/upload`), starting from any state
with at most one live main row, at most one row with `image_type = "main"`
and `deleted_at IS NULL` exists afterwards.  (The replacement mechanism
differs from the claim for the admin route: the gallery POST soft-deletes
the previous live main rows, while the admin upload hard-deletes every
main row.) -/
theorem mainOps_at_most_one_live_main (s : List GRow × List String)
    (ops : List MainOp) (h : liveMainCount s.1 ≤ 1) :
    liveMainCount (applyMainOps s ops).1 ≤ 1 :=
  applyMainOps_liveMainCount ops s h

/-- C2 witness: the invariant theorem applied to a concrete two-insertion
sequence from the empty state. -/
theorem mainOps_at_most_one_live_main_witness :
    liveMainCount (applyMainOps ([], [])
      [MainOp.viaGallery "a.jpg" 1, MainOp.viaAdmin c2file 2 "r"]).1 ≤ 1 :=
  mainOps_at_most_one_live_main ([], [])
    [MainOp.viaGallery "a.jpg" 1, MainOp.viaAdmin c2file 2 "r"] (by decide)

/-- C2 counterexample: replacing the main image through
`POST /api/admin/upload` removes the previous live main row outright
(`DELETE FROM gallery WHERE image_type = "main"`): afterwards no row with
its id exists at all, so the previous main row was NOT soft-deleted. -/
theorem adminUpload_hard_deletes_previous_main :
    c2old.image_type = "main" ∧ c2old.deleted_at = none ∧
    ((adminUpload [c2old, c2other] [] (some "admin_s") (some c2file) (some "main") 2 "r").2.1.filter
      (fun r => decide (r.id = c2old.id))) = [] := by decide

theorem filter_id_live_singleton (db : List GRow) (gid : Nat) (row : GRow)
    (hnd : (db.map GRow.id).Nodup) (hmem : row ∈ db) (hid : row.id = gid)
    (hlive : row.deleted_at = none) :
    db.filter (fun r => decide (r.id = gid ∧ r.deleted_at = none)) = [row] := by
  induction db with
  | nil => cases hmem
  | cons a rest ih =>
    rw [List.map_cons, List.nodup_cons] at hnd
    rcases List.mem_cons.mp hmem with h | hmem2
    · subst h
      rw [List.filter_cons_of_pos (by simp [hid, hlive])]
      have hrest : rest.filter (fun r => decide (r.id = gid ∧ r.deleted_at = none)) = [] := by
        rw [List.filter_eq_nil_iff]
        intro b hb hpred
        simp only [decide_eq_true_eq] at hpred
        have hbm : b.id ∈ rest.map GRow.id := List.mem_map_of_mem GRow.id hb
        rw [hpred.1, ← hid] at hbm
        exact hnd.1 hbm
      rw [hrest]
    · have hne : ¬ (a.id = gid ∧ a.deleted_at = none) := by
        intro hc
        have hbm : row.id ∈ rest.map GRow.id := List.mem_map_of_mem GRow.id hmem2
        rw [hid, ← hc.1] at hbm
        exact hnd.1 hbm
      rw [List.filter_cons_of_neg (by simpa using hne)]
      exact ih hnd.2 hmem2

/-- C3 (amended): for every not-yet-deleted gallery row with the given id,
`DELETE /api/gallery?id=<id>` succeeds (200), sets `deleted_at` on exactly
the rows with that id and leaves every other row untouched, best-effort
unlinks the backing file (a missing file is not an error: the file-store
update is `erase`, the identity when the path is absent, and the response
is success either way) — but the id STILL appears in subsequent
`GET /api/gallery` results, because the read query does not filter
`deleted_at`. -/
theorem galleryDELETE_soft_deletes_but_still_listed
    (db : List GRow) (fs : List String) (gid t : Nat) (row : GRow)
    (hmem : row ∈ db) (hid : row.id = gid) (hlive : row.deleted_at = none)
    (hnd : (db.map GRow.id).Nodup) :
    (galleryDELETE db fs (some gid) t).1 = { status := 200, success := true } ∧
    (∀ r ∈ (galleryDELETE db fs (some gid) t).2.1, r.id = gid → r.deleted_at = some t) ∧
    (∀ r ∈ db, ¬ r.id = gid → r ∈ (galleryDELETE db fs (some gid) t).2.1) ∧
    ((galleryDELETE db fs (some gid) t).2.2 =
      if row.filename = "" then fs else fs.erase (joinPath cwdUploads row.filename)) ∧
    (∃ it ∈ (galleryGET (Except.ok (galleryDELETE db fs (some gid) t).2.1)).data,
      it.id = gid) := by
  have hfilt := filter_id_live_singleton db gid row hnd hmem hid hlive
  have hred : galleryDELETE db fs (some gid) t =
      ({ status := 200, success := true },
       db.map (fun r => if r.id = gid then { r with deleted_at := some t } else r),
       if row.filename = "" then fs else fs.erase (joinPath cwdUploads row.filename)) := by
    simp only [galleryDELETE, hfilt]
  rw [hred]
  refine ⟨rfl, ?_, ?_, rfl, ?_⟩
  · intro r hr hrid
    simp only [List.mem_map] at hr
    obtain ⟨r0, _, rfl⟩ := hr
    by_cases hc : r0.id = gid
    · simp [hc]
    · simp only [if_neg hc] at hrid ⊢
      exact absurd hrid hc
  · intro r hr hrne
    exact List.mem_map.mpr ⟨r, hr, by simp [hrne]⟩
  · refine ⟨toItem { row with deleted_at := some t }, ?_, ?_⟩
    · simp only [galleryGET]
      refine List.mem_map.mpr ⟨{ row with deleted_at := some t }, ?_, rfl⟩
      rw [List.mem_insertionSort]
      exact List.mem_map.mpr ⟨row, hmem, by simp [hid]⟩
    · simpa [toItem] using hid

/-- C3 witness: the theorem applied to a concrete one-row table. -/
theorem galleryDELETE_soft_deletes_witness :
    (galleryDELETE [c3row] [] (some 1) 7).1 = { status := 200, success := true } :=
  (galleryDELETE_soft_deletes_but_still_listed [c3row] [] 1 7 c3row
    (by decide) (by decide) (by decide) (by decide)).1

/-- C3 counterexample: after a successful soft delete of id 1 the id still
appears in the data returned by `GET /api/gallery` (the read query has no
`deleted_at IS NULL` filter), refuting "the id no longer appears in
subsequent GET /api/gallery results". -/
theorem galleryDELETE_id_still_in_GET :
    c3row.deleted_at = none ∧
    (galleryDELETE [c3row] [] (some 1) 7).1.success = true ∧
    ((galleryGET (Except.ok (galleryDELETE [c3row] [] (some 1) 7).2.1)).data.filter
      (fun it => decide (it.id = 1))) ≠ [] := by decide

/-- C4 (amended): a gallery-type insert through `POST /api/gallery` gets
`order_index = 1 + MAX(order_index)` over LIVE gallery rows
(`deleted_at IS NULL`, coalescing the empty maximum to 0), but a
gallery-type insert through `POST /api/admin/upload` gets
`order_index = 1 + MAX(order_index)` over ALL gallery rows — its MAX query
has no `deleted_at` filter, so soft-deleted rows participate. -/
theorem gallery_insert_order_index
    (db : List GRow) (fs : List String) (f : String) (t : Nat)
    (file : UpFile) (rand : String)
    (hf : ¬ f = "") (hsize : ¬ file.size > maxFileSize) (hsharp : file.sharpOk = true) :
    (galleryPOST db fs { filename := some f, image_type := some "gallery" } t).2.1
      = db ++ [{ id := nextId db, filename := f, image_type := "gallery",
                 created_at := t, order_index := some (maxLiveGalleryOrder db + 1),
                 deleted_at := none }] ∧
    (adminUpload db fs (some "admin_s") (some file) (some "gallery") t rand).2.1
      = db ++ [{ id := nextId db,
                 filename := "images/" ++ ("gallery_" ++ toString t ++ "_" ++ rand ++ ".jpg"),
                 image_type := "gallery", created_at := t,
                 order_index := some (maxAllGalleryOrder db + 1), deleted_at := none }] := by
  constructor
  · simp only [galleryPOST, Option.getD_some, if_neg hf,
      if_neg (by decide : ¬ (¬ ("gallery" : String) = "main" ∧ ¬ ("gallery" : String) = "gallery")),
      if_neg (by decide : ¬ ("gallery" : String) = "main")]
  · have hred : adminUpload db fs (some "admin_s") (some file) (some "gallery") t rand
        = adminUploadFile db fs file (some "gallery") t rand := rfl
    rw [hred]
    simp only [adminUploadFile, Option.getD_some, if_neg hsize,
      if_neg (by decide : ¬ ("gallery" : String) = ""),
      if_neg (by decide : ¬ ("gallery" : String) = "main"),
      if_neg (show ¬ ¬ file.sharpOk = true by simp [hsharp]),
      if_pos (rfl : ("gallery" : String) = "gallery"), if_true]

/-- C4 witness: the gallery-POST half applied at an empty table: the first
gallery image gets `order_index = 1`. -/
theorem gallery_insert_order_index_witness :
    (galleryPOST [] [] { filename := some "a.jpg", image_type := some "gallery" } 4).2.1
      = [{ id := 1, filename := "a.jpg", image_type := "gallery", created_at := 4,
           order_index := some 1, deleted_at := none }] := by
  have h := (gallery_insert_order_index [] [] "a.jpg" 4 c4file "r"
    (by decide) (by decide) (by decide)).1
  simpa [nextId, maxLiveGalleryOrder] using h

/-- C4 counterexample: with a live gallery maximum of 2 but a soft-deleted
gallery row carrying `order_index = 5`, the admin upload inserts with
`order_index = 6`, not `2 + 1` — the claimed "maximum among rows with
deleted_at IS NULL" is wrong for this route. -/
theorem adminUpload_order_ignores_deleted :
    maxLiveGalleryOrder c4db = 2 ∧
    (adminUpload c4db [] (some "admin_s") (some c4file) (some "gallery") 9 "r").2.1.getLast?
      = some { id := 3, filename := "images/gallery_9_r.jpg", image_type := "gallery",
               created_at := 9, order_index := some 6, deleted_at := none } ∧
    ¬ ((6 : Nat) = maxLiveGalleryOrder c4db + 1) := by decide

theorem gb_filter_id_live_singleton (db : List GBRow) (gid : Nat) (row : GBRow)
    (hnd : (db.map GBRow.id).Nodup) (hmem : row ∈ db) (hid : row.id = gid)
    (hlive : row.deleted_at = none) :
    db.filter (fun r => decide (r.id = gid ∧ r.deleted_at = none)) = [row] := by
  induction db with
  | nil => cases hmem
  | cons a rest ih =>
    rw [List.map_cons, List.nodup_cons] at hnd
    rcases List.mem_cons.mp hmem with h | hmem2
    · subst h
      rw [List.filter_cons_of_pos (by simp [hid, hlive])]
      have hrest : rest.filter (fun r => decide (r.id = gid ∧ r.deleted_at = none)) = [] := by
        rw [List.filter_eq_nil_iff]
        intro b hb hpred
        simp only [decide_eq_true_eq] at hpred
        have hbm : b.id ∈ rest.map GBRow.id := List.mem_map_of_mem GBRow.id hb
        rw [hpred.1, ← hid] at hbm
        exact hnd.1 hbm
      rw [hrest]
    · have hne : ¬ (a.id = gid ∧ a.deleted_at = none) := by
        intro hc
        have hbm : row.id ∈ rest.map GBRow.id := List.mem_map_of_mem GBRow.id hmem2
        rw [hid, ← hc.1] at hbm
        exact hnd.1 hbm
      rw [List.filter_cons_of_neg (by simpa using hne)]
      exact ih hnd.2 hmem2

/-- C7: for every live guestbook row and a supplied password that does not
match the stored password (hashed comparison when the stored value holds a
colon, plaintext comparison otherwise), `DELETE /api/guestbook` answers
401 and the table is completely unchanged. -/
theorem guestbookDELETE_wrong_password_401
    (verify : String → String → Bool) (hash : String → String)
    (db : List GBRow) (gid t : Nat) (pw : String) (row : GBRow)
    (hmem : row ∈ db) (hid : row.id = gid) (hlive : row.deleted_at = none)
    (hnd : (db.map GBRow.id).Nodup) (hpw : ¬ pw = "")
    (hmatch : computeMatch verify pw row.password = false) :
    (guestbookDELETE verify hash db (some gid) (some pw) t).1
      = { status := 401, success := false } ∧
    (guestbookDELETE verify hash db (some gid) (some pw) t).2 = db := by
  have hfilt := gb_filter_id_live_singleton db gid row hnd hmem hid hlive
  simp only [guestbookDELETE, if_neg hpw, hfilt, hmatch]
  norm_num

/-- C7 witness: the theorem applied to a one-row table with stored
plaintext password "pw1" and supplied password "pw2". -/
theorem guestbookDELETE_wrong_password_401_witness :
    (guestbookDELETE (fun _ _ => false) (fun s => s) [c7row] (some 1) (some "pw2") 9).1
      = { status := 401, success := false } ∧
    (guestbookDELETE (fun _ _ => false) (fun s => s) [c7row] (some 1) (some "pw2") 9).2
      = [c7row] :=
  guestbookDELETE_wrong_password_401 (fun _ _ => false) (fun s => s) [c7row] 1 9 "pw2" c7row
    (by decide) (by decide) (by decide) (by decide) (by decide) (by decide)

/-- C8 (amended): both upload routes reject a file above the 50MB limit
with a 400 failure; `POST /api/upload/image` additionally rejects a MIME
type outside JPEG/PNG/WebP (so HEIC) with 400 — but `POST /api/admin/upload`
has NO MIME-type allow-list (it rejects non-decodable HEIC only through a
sharp failure); every accepted file is processed by a sharp pipeline that
re-encodes to progressive JPEG and resizes to a bounded maximum width
(1920 resp. 1200) with `fit: inside` (aspect-ratio preserving) and without
enlargement. -/
theorem upload_validation
    (db : List GRow) (fs : List String) (f : UpFile) (tid : Option String)
    (t : Nat) (rand : String) :
    (f.size > maxFileSize →
      (uploadImage fs (some f) tid t).1
        = { status := 400, success := false, processed := none }) ∧
    (f.size > maxFileSize →
      (adminUpload db fs (some "admin_s") (some f) (some "gallery") t rand).1
        = { status := 400, success := false, processed := none }) ∧
    (¬ f.mime ∈ supportedTypes → ¬ f.size > maxFileSize →
      (uploadImage fs (some f) tid t).1
        = { status := 400, success := false, processed := none }) ∧
    (∀ sp, (uploadImage fs (some f) tid t).1.processed = some sp → sp = imageSharp) ∧
    (∀ sp, (adminUpload db fs (some "admin_s") (some f) (some "gallery") t rand).1.processed
      = some sp → sp = adminSharp) ∧
    imageSharp.progressive = true ∧ imageSharp.maxWidth = 1920 ∧
    imageSharp.fitInside = true ∧ imageSharp.withoutEnlargement = true ∧
    adminSharp.progressive = true ∧ adminSharp.maxWidth = 1200 ∧
    adminSharp.fitInside = true ∧ adminSharp.withoutEnlargement = true := by
  have hred : adminUpload db fs (some "admin_s") (some f) (some "gallery") t rand
      = adminUploadFile db fs f (some "gallery") t rand := rfl
  refine ⟨?_, ?_, ?_, ?_, ?_, rfl, rfl, rfl, rfl, rfl, rfl, rfl, rfl⟩
  · intro h
    simp only [uploadImage, if_pos h]
  · intro h
    rw [hred]
    simp only [adminUploadFile, Option.getD_some, if_pos h]
  · intro h1 h2
    simp only [uploadImage, if_neg h2, if_pos h1]
  · intro sp hsp
    by_cases h1 : f.size > maxFileSize
    · simp only [uploadImage, if_pos h1] at hsp
      cases hsp
    · by_cases h2 : ¬ f.mime ∈ supportedTypes
      · simp only [uploadImage, if_neg h1, if_pos h2] at hsp
        cases hsp
      · by_cases h3 : f.sharpOk = true
        · simp only [uploadImage, if_neg h1, if_neg h2,
            if_neg (show ¬ ¬ f.sharpOk = true by simp [h3])] at hsp
          exact (Option.some.inj hsp).symm
        · simp only [uploadImage, if_neg h1, if_neg h2,
            if_pos (show ¬ f.sharpOk = true from h3)] at hsp
          cases hsp
  · intro sp hsp
    rw [hred] at hsp
    by_cases h1 : f.size > maxFileSize
    · simp only [adminUploadFile, Option.getD_some, if_pos h1] at hsp
      cases hsp
    · by_cases h3 : f.sharpOk = true
      · simp only [adminUploadFile, Option.getD_some, if_neg h1,
          if_neg (by decide : ¬ ("gallery" : String) = ""),
          if_neg (by decide : ¬ ("gallery" : String) = "main"),
          if_neg (show ¬ ¬ f.sharpOk = true by simp [h3]),
          if_pos (rfl : ("gallery" : String) = "gallery"), if_true] at hsp
        exact (Option.some.inj hsp).symm
      · by_cases h4 : isHeicFile f = true
        · simp only [adminUploadFile, Option.getD_some, if_neg h1,
            if_neg (by decide : ¬ ("gallery" : String) = ""),
            if_neg (by decide : ¬ ("gallery" : String) = "main"),
            if_pos (show ¬ f.sharpOk = true from h3), if_pos h4, if_true] at hsp
          cases hsp
        · simp only [adminUploadFile, Option.getD_some, if_neg h1,
            if_neg (by decide : ¬ ("gallery" : String) = ""),
            if_neg (by decide : ¬ ("gallery" : String) = "main"),
            if_pos (show ¬ f.sharpOk = true from h3), if_neg h4, if_true] at hsp
          cases hsp

/-- C8 witness: both size-limit conjuncts applied to an oversized upload,
and the MIME conjunct applied to a GIF on the image route. -/
theorem upload_validation_witness :
    (uploadImage [] (some c8big) none 1).1
      = { status := 400, success := false, processed := none } ∧
    (adminUpload [] [] (some "admin_s") (some c8big) (some "gallery") 1 "r").1
      = { status := 400, success := false, processed := none } ∧
    (uploadImage [] (some c8gif) none 1).1
      = { status := 400, success := false, processed := none } :=
  ⟨(upload_validation [] [] c8big none 1 "r").1 (by decide),
   (upload_validation [] [] c8big none 1 "r").2.1 (by decide),
   (upload_validation [] [] c8gif none 1 "r").2.2.1 (by decide) (by decide)⟩

/-- C8 counterexample: a 100-byte GIF (`image/gif`, decodable by sharp) is
ACCEPTED by `POST /api/admin/upload` — the route validates no MIME type,
refuting "a file whose MIME type is not JPEG, PNG, or WebP is rejected"
for this route. -/
theorem adminUpload_accepts_disallowed_mime :
    ¬ c8gif.mime ∈ supportedTypes ∧
    (adminUpload [] [] (some "admin_s") (some c8gif) (some "gallery") 5 "r").1
      = { status := 200, success := true, processed := some adminSharp } := by
  exact ⟨by decide, by decide⟩

theorem applyOrders_preserve (ids : List Nat) (db : List GRow) (s rid : Nat)
    (v : Option Nat) (hnot : ¬ rid ∈ ids)
    (h : ∀ r ∈ db, r.id = rid → r.order_index = v) :
    ∀ r ∈ applyOrders db ids s, r.id = rid → r.order_index = v := by
  revert hnot h
  induction ids generalizing db s with
  | nil =>
    intro hnot h
    simpa [applyOrders] using h
  | cons a rest ih =>
    intro hnot h
    show ∀ r ∈ applyOrders (updOrder a s db) rest (s + 1), r.id = rid → r.order_index = v
    refine ih (updOrder a s db) (s + 1) (fun hc => hnot (List.mem_cons_of_mem a hc)) ?_
    intro r hr hrid
    simp only [updOrder, List.mem_map] at hr
    obtain ⟨r0, hr0, rfl⟩ := hr
    by_cases hca : r0.id = a
    · exfalso
      rw [if_pos hca] at hrid
      simp only at hrid
      exact hnot (by rw [← hrid, hca]; exact List.mem_cons_self a rest)
    · rw [if_neg hca] at hrid ⊢
      exact h r0 hr0 hrid

theorem applyOrders_get (ids : List Nat) :
    ∀ (db : List GRow) (s i : Nat), ids.Nodup → ∀ hi : i < ids.length,
    ∀ r ∈ applyOrders db ids s, r.id = ids.get ⟨i, hi⟩ → r.order_index = some (s + i) := by
  induction ids with
  | nil =>
    intro db s i _ hi
    exact absurd hi (Nat.not_lt_zero i)
  | cons a rest ih =>
    intro db s i hnd hi r hr hrid
    have hnd2 := List.nodup_cons.mp hnd
    cases i with
    | zero =>
      have hset : ∀ r2 ∈ updOrder a s db, r2.id = a → r2.order_index = some s := by
        intro r2 hr2 hr2id
        simp only [updOrder, List.mem_map] at hr2
        obtain ⟨r0, _, rfl⟩ := hr2
        by_cases hca : r0.id = a
        · simp [hca]
        · rw [if_neg hca] at hr2id ⊢
          exact absurd hr2id hca
      have hpres := applyOrders_preserve rest (updOrder a s db) (s + 1) a (some s)
        hnd2.1 hset
      have hv : r.order_index = some s := hpres r hr hrid
      simpa using hv
    | succ j =>
      have hv := ih (updOrder a s db) (s + 1) j hnd2.2
        (Nat.lt_of_succ_lt_succ hi) r hr hrid
      rw [hv]
      congr 1
      omega

/-- C9 (spec-modelled): `reorder(ids)` assigns `order_index = position`
(base 0) to every row whose id sits at that position of the given order:
for distinct ids, after `reorder db ids` every row with `id = ids[i]` has
`order_index = i` — in particular `reorder([3,1,2])` yields `order_index`
0, 1, 2 for ids 3, 1, 2 respectively. -/
theorem reorder_assigns_positions (db : List GRow) (ids : List Nat)
    (hnd : ids.Nodup) (i : Nat) (hi : i < ids.length) :
    ∀ r ∈ reorder db ids, r.id = ids.get ⟨i, hi⟩ → r.order_index = some i := by
  intro r hr hrid
  have hv := applyOrders_get ids db 0 i hnd hi r hr hrid
  simpa using hv

/-- C9 witness: `reorder([3,1,2])` on three live gallery rows gives the row
with id 3 the `order_index` 0. -/
theorem reorder_assigns_positions_witness :
    ∃ r ∈ reorder c9db [3, 1, 2], r.order_index = some 0 :=
  ⟨{ id := 3, filename := "p3.jpg", image_type := "gallery", created_at := 3,
     order_index := some 0, deleted_at := none }, by decide,
   reorder_assigns_positions c9db [3, 1, 2] (by decide) 0 (by decide) _ (by decide) (by decide)⟩

/-- C1 witness: the theorem applied at the empty table. -/
theorem galleryGET_all_rows_sorted_witness :
    (galleryGET (Except.ok ([] : List GRow))).success = true :=
  (galleryGET_all_rows_sorted []).1
